import Mathlib

set_option maxHeartbeats 1000000

/-!
Verification development for the lider-scraper repository
(src/scraper-jumbo.py and src/scraper-unimarc.py).

This file shallowly embeds the crawl-and-merge core of the two scripts:

* the persistent JSON store (`load_existing_products`, `save_products`,
  identical in both scripts),
* the identity-key derivation `p.get("product_url") or p.get("id")`,
* the per-category pagination loops (`scrape_category_products` in
  scraper-jumbo.py and `scrape_category_products_playwright` in
  scraper-unimarc.py), including the per-page validity and duplicate
  filters, the continuous read-merge-write store persistence, the skip
  flag checkpoints, the page caps (50 and 10), and the stop conditions,
* the try/finally discipline of both `main` functions.

Python dicts are embedded as insertion-ordered association lists, Python
string truthiness (`None` and `""` are falsy) is modelled explicitly, and
the crawl loops are embedded as fuel-indexed recursion where the fuel is
exactly the script's page cap, so termination of the embedded loop is
termination of the source loop.  External effects (the page extractor
results, operator keypresses setting the skip flag) enter through oracle
functions from page numbers.
-/

/-- One product record, with exactly the fields the two scrapers build
(scraper-jumbo.py lines 268-285, scraper-unimarc.py lines 148-165) and
`save_products`/`load_existing_products` persist.  Absent/null JSON fields
are `none`.  `rating` is carried opaquely (no claim inspects its numeric
value). -/
structure Product where
  id : Option String := none
  name : Option String := none
  brand : Option String := none
  category : Option String := none
  price : Option Int := none
  price_original : Option Int := none
  currency : Option String := none
  size : Option String := none
  unit_price : Option Int := none
  image_url : Option String := none
  product_url : Option String := none
  in_stock : Bool := false
  promo_text : Option String := none
  sku : Option String := none
  rating : Option Int := none
  description : Option String := none
deriving DecidableEq, Repr

/-- A Python dict keyed by strings, as an insertion-ordered association list. -/
abbrev PDict := List (String × Product)

/-- Python truthiness of an optional string: `None` and `""` are falsy. -/
def strTruthy : Option String → Bool
  | none => false
  | some s => !(s == "")

/-- Python `a or b` on optional strings: returns `a` if `a` is truthy, else `b`. -/
def pyOr (a b : Option String) : Option String :=
  if strTruthy a then a else b

/-- The identity key `p.get("product_url") or p.get("id")` used by
`load_existing_products` (both scripts) and by the duplicate filters of both
category crawlers. -/
def identityKey (r : Product) : Option String :=
  pyOr r.product_url r.id

/-- Python truthiness of an optional integer (for `parseInt` results:
`None` and `0` are falsy). -/
def intTruthy : Option Int → Bool
  | none => false
  | some n => !(n == 0)

/-- Python dict assignment `d[k] = v` on an insertion-ordered association
list: update the value in place if the key exists, otherwise append. -/
def dictInsert (k : String) (v : Product) : PDict → PDict
  | [] => [(k, v)]
  | kv :: rest => if kv.1 = k then (k, v) :: rest else kv :: dictInsert k v rest

/-- Python `k in d`. -/
def keyMem (k : String) (l : PDict) : Bool :=
  l.any fun kv => kv.1 == k

/-- Python `base.update(upd)`: assign every entry of `upd`, in order, into `base`. -/
def dictUpdate (base upd : PDict) : PDict :=
  upd.foldl (fun acc kv => dictInsert kv.1 kv.2 acc) base

/-- One element of the on-disk JSON array: either a record object or some
non-object JSON value (on which the comprehension's `p.get` raises). -/
inductive JsonItem where
  | obj (r : Product)
  | nonObj
deriving DecidableEq, Repr

/-- The on-disk state of the store document: absent file, a file json.load
fails to parse, or a parsed top-level array. -/
inductive StoreDoc where
  | missing
  | malformed
  | array (items : List JsonItem)
deriving DecidableEq, Repr

/-- The dict comprehension of `load_existing_products`:
`{p.get("product_url") or p.get("id"): p for p in products if p.get("product_url") or p.get("id")}`.
Processes items left to right; raises (like `p.get` on a non-dict) at the
first non-object item; keeps a record iff its identity key is truthy;
last assignment wins on duplicate keys. -/
def comprehendAux (acc : PDict) : List JsonItem → Except Unit PDict
  | [] => .ok acc
  | .nonObj :: _ => .error ()
  | .obj r :: rest =>
    match identityKey r with
    | some k => if k = "" then comprehendAux acc rest else comprehendAux (dictInsert k r acc) rest
    | none => comprehendAux acc rest

/-- Result of `load_existing_products`: the keyed collection plus whether the
`[WARN] Could not load existing products` message was printed. -/
structure LoadResult where
  dict : PDict
  warned : Bool
deriving DecidableEq, Repr

/-- `load_existing_products` (scraper-jumbo.py lines 17-27, scraper-unimarc.py
lines 16-25, identical): missing file yields an empty dict silently; any
exception during parsing or the comprehension is caught by
`except (json.JSONDecodeError, Exception)`, warns, and yields an empty dict.
The function is total: no case raises to the caller. -/
def load_existing_products : StoreDoc → LoadResult
  | .missing => ⟨[], false⟩
  | .malformed => ⟨[], true⟩
  | .array items =>
    match comprehendAux [] items with
    | .ok d => ⟨d, false⟩
    | .error _ => ⟨[], true⟩

/-- `save_products` (both scripts): writes `list(products.values())` as the
whole document, replacing previous content. -/
def save_products (products : PDict) : StoreDoc :=
  .array (products.map fun kv => .obj kv.2)

/-- Items of the on-disk array (empty for a missing or unparsable document). -/
def docItems : StoreDoc → List JsonItem
  | .array items => items
  | _ => []

/-! ### Category crawlers -/

/-- Outcome of one `page.goto` + extraction attempt, supplied by an oracle:
the page load timed out (`PlaywrightTimeoutError`), some other exception was
raised, or the page extractor produced data. -/
inductive PageLoad (α : Type) where
  | timeout
  | error
  | ok (data : α)

/-- What the jumbo page extractor returns for one page: the raw records of
the in-page `page.evaluate` (lines 178-289), the next-button detection
(lines 315-350), and the page-position probe (lines 359-367): `current` is
the `parseInt` of the current-page indicator (None when absent) and `total`
the counted page elements. -/
structure JumboPageData where
  products : List Product
  hasNext : Bool
  current : Option Int
  total : Nat

/-- Outcome stored in the per-page trace: like `PageLoad` but recording how
many records survived the validity/duplicate filter on an `ok` page. -/
inductive VisitOutcome where
  | timeout
  | error
  | ok (validCount : Nat)
deriving DecidableEq, Repr

/-- One loaded page in a category crawl: its page number, the URL passed to
`page.goto`, and the outcome. -/
structure PageVisit where
  pageNum : Nat
  url : String
  outcome : VisitOutcome
deriving DecidableEq, Repr

/-- Mutable state threaded through a category crawl: the on-disk store
document, the `new_products` dict, and the `skip_category_flag`. -/
structure CrawlState where
  doc : StoreDoc
  newProducts : PDict
  flag : Bool
deriving DecidableEq, Repr

/-- Python `"?" in category_url`: the URL contains a question mark. -/
def strContainsChar (s : String) (c : Char) : Bool :=
  s.data.contains c

/-- The paginated URL of scraper-jumbo.py lines 163-167: a page parameter is
appended for every page, page 1 included (`&page=n` when the category URL
already has a query string, else `?page=n`). -/
def jumboPageUrl (categoryUrl : String) (pageNum : Nat) : String :=
  if strContainsChar categoryUrl '?' then categoryUrl ++ "&page=" ++ Nat.repr pageNum
  else categoryUrl ++ "?page=" ++ Nat.repr pageNum

/-- The per-page filter loop of scraper-jumbo.py lines 292-299: keep a raw
record only if its name is truthy and (its price is not None or its
product_url is truthy); derive the identity key; keep it only if the key is
truthy and not already in `existing_products` nor in `new_products`; stamp
the category name; append to `valid_products` and assign into
`new_products`.  Returns (valid_products, updated new_products). -/
def jumboFilter (categoryName : String) (existing acc : PDict) :
    List Product → List Product × PDict
  | [] => ([], acc)
  | p :: rest =>
    if strTruthy p.name = true ∧ (p.price ≠ none ∨ strTruthy p.product_url = true) then
      match identityKey p with
      | some k =>
        if k ≠ "" ∧ keyMem k existing = false ∧ keyMem k acc = false then
          let stamped := { p with category := some categoryName }
          let r := jumboFilter categoryName existing (dictInsert k stamped acc) rest
          (stamped :: r.1, r.2)
        else jumboFilter categoryName existing acc rest
      | none => jumboFilter categoryName existing acc rest
    else jumboFilter categoryName existing acc rest

/-- The while loop of `scrape_category_products` (scraper-jumbo.py lines
145-382), by recursion on the remaining page budget (`max_pages = 50`, loop
condition `page_num <= max_pages`).  Each iteration: check and consume the
skip flag (lines 157-160); build the paginated URL and load the page; on
timeout or any exception, log and break (lines 374-379); otherwise filter
the extracted records, and if any survived, reload the store document, merge
`new_products` into it and save (lines 303-312); stop when no record
survived on a page beyond the first (lines 352-355); when the extractor
reports no next button, stop if the page-position probe shows a truthy
current page, a non-zero total, and `page_num >= total` (lines 357-369);
else advance to the next page.  `sched n = true` means the operator sets the
skip flag while page `n` is being processed (that is, after the top-of-loop
check of iteration `n` and before the next check).  Returns the trace of
loaded pages and the final state. -/
def scrapeCategoryProductsAux (o : Nat → PageLoad JumboPageData)
    (sched : Nat → Bool) (categoryUrl categoryName : String) (existing : PDict) :
    Nat → Nat → CrawlState → List PageVisit × CrawlState
  | 0, _, st => ([], st)
  | fuel + 1, pageNum, st =>
    if st.flag = true then ([], { st with flag := false })
    else
      match o pageNum with
      | .timeout =>
        ([⟨pageNum, jumboPageUrl categoryUrl pageNum, .timeout⟩], { st with flag := sched pageNum })
      | .error =>
        ([⟨pageNum, jumboPageUrl categoryUrl pageNum, .error⟩], { st with flag := sched pageNum })
      | .ok d =>
        let fp := jumboFilter categoryName existing st.newProducts d.products
        let doc' := if fp.1.isEmpty = true then st.doc
          else save_products (dictUpdate (load_existing_products st.doc).dict fp.2)
        let st' : CrawlState := ⟨doc', fp.2, sched pageNum⟩
        let visit : PageVisit := ⟨pageNum, jumboPageUrl categoryUrl pageNum, .ok fp.1.length⟩
        if fp.1.isEmpty = true ∧ 1 < pageNum then ([visit], st')
        else if d.hasNext = false ∧ intTruthy d.current = true ∧ d.total ≠ 0 ∧ d.total ≤ pageNum then
          ([visit], st')
        else
          let rest := scrapeCategoryProductsAux o sched categoryUrl categoryName existing fuel (pageNum + 1) st'
          (visit :: rest.1, rest.2)

/-- `scrape_category_products` of scraper-jumbo.py: run the page loop from
page 1 with the page cap `max_pages = 50`, an empty `new_products`, the
given store document on disk, and the given initial skip-flag value. -/
def scrape_category_products (o : Nat → PageLoad JumboPageData)
    (sched : Nat → Bool) (categoryUrl categoryName : String) (existing : PDict)
    (doc : StoreDoc) (flag : Bool) : List PageVisit × CrawlState :=
  scrapeCategoryProductsAux o sched categoryUrl categoryName existing 50 1 ⟨doc, [], flag⟩

/-- One element of a raw unimarc product's `sellers` list.
`availableQuantity` is modelled after the default has been applied
(`first_seller.get("availableQuantity", 0)`). -/
structure USeller where
  price : Option Int
  listPrice : Option Int
  availableQuantity : Int
  ppum : Option Int
deriving DecidableEq, Repr

/-- `priceDetail.promotionalTag` of a raw unimarc product (absent or empty
dicts are `none`). -/
structure UPromoTag where
  text : Option String
deriving DecidableEq, Repr

/-- `priceDetail` of a raw unimarc product. -/
structure UPromoDetail where
  promotionalTag : Option UPromoTag
deriving DecidableEq, Repr

/-- A raw product object from the unimarc `__NEXT_DATA__` payload, with the
fields `scrape_category_products_playwright` reads (scraper-unimarc.py lines
112-144).  `detailUrl` is modelled after `product.get("detailUrl", "")`
(default applied). -/
structure URaw where
  productId : Option String := none
  itemId : Option String := none
  name : Option String := none
  nameComplete : Option String := none
  brand : Option String := none
  description : Option String := none
  sellers : List USeller := []
  images : List String := []
  sku : Option String := none
  detailUrl : String := ""
  netContentLevelSmall : Option String := none
  netContent : Option String := none
  priceDetail : Option UPromoDetail := none
deriving DecidableEq, Repr

/-- `product_id = product.get("productId") or product.get("itemId")`
(scraper-unimarc.py line 112). -/
def uProductId (r : URaw) : Option String :=
  pyOr r.productId r.itemId

/-- `product_url = f"https://www.unimarc.cl{detail_url}" if detail_url else None`
(scraper-unimarc.py lines 134-135). -/
def uProductUrl (r : URaw) : Option String :=
  if r.detailUrl = "" then none else some ("https://www.unimarc.cl" ++ r.detailUrl)

/-- The `product_dict` built at scraper-unimarc.py lines 148-165 from a raw
payload product: name falls back to `nameComplete`, seller data comes from
the first seller (price/listPrice/ppum None and out-of-stock when the
sellers list is empty), `int(price) if price else None` maps falsy prices to
None, `price_original` is kept only when truthy and different from the raw
price, the image is the first one, the promo text is read through the
`priceDetail.promotionalTag.text` chain, rating is always None, and the
category is stamped with the category name. -/
def buildURecord (categoryName : String) (r : URaw) : Product :=
  let rawPrice := match r.sellers with | [] => none | s :: _ => s.price
  let rawListPrice := match r.sellers with | [] => none | s :: _ => s.listPrice
  { id := uProductId r
    name := pyOr r.name r.nameComplete
    brand := r.brand
    category := some categoryName
    price := (match rawPrice with
      | none => none
      | some v => if v = 0 then none else some v)
    price_original := (match rawListPrice with
      | none => none
      | some v => if v ≠ 0 ∧ some v ≠ rawPrice then some v else none)
    currency := some "CLP"
    size := pyOr r.netContentLevelSmall r.netContent
    unit_price := match r.sellers with | [] => none | s :: _ => s.ppum
    image_url := r.images.head?
    product_url := uProductUrl r
    in_stock := match r.sellers with | [] => false | s :: _ => 0 < s.availableQuantity
    promo_text := (match r.priceDetail with
      | none => none
      | some pd =>
        match pd.promotionalTag with
        | none => none
        | some pt => pt.text)
    sku := pyOr r.sku r.itemId
    rating := none
    description := r.description }

/-- The per-product loop of scraper-unimarc.py lines 107-168: stop as soon
as `new_products` holds `max_products_per_category` records; build the
product dict; derive the key `product_url or product_id`; keep the record
only if the key is truthy and not already in `existing_products` nor
`new_products`.  There is no name/price validity condition in this script.
Returns (valid_products, updated new_products). -/
def unimarcFilter (categoryName : String) (maxProducts : Nat) (existing acc : PDict) :
    List URaw → List Product × PDict
  | [] => ([], acc)
  | raw :: rest =>
    if maxProducts ≤ acc.length then ([], acc)
    else
      match pyOr (uProductUrl raw) (uProductId raw) with
      | some k =>
        if k ≠ "" ∧ keyMem k existing = false ∧ keyMem k acc = false then
          let p := buildURecord categoryName raw
          let r := unimarcFilter categoryName maxProducts existing (dictInsert k p acc) rest
          (p :: r.1, r.2)
        else unimarcFilter categoryName maxProducts existing acc rest
      | none => unimarcFilter categoryName maxProducts existing acc rest

/-- The paginated URL of scraper-unimarc.py lines 76-79: page 1 loads the
bare category URL, later pages append `?page=n`. -/
def unimarcPageUrl (categoryUrl : String) (pageNum : Nat) : String :=
  if pageNum = 1 then categoryUrl else categoryUrl ++ "?page=" ++ Nat.repr pageNum

/-- The while loop of `scrape_category_products_playwright`
(scraper-unimarc.py lines 54-199), by recursion on the remaining page budget
(`max_pages = 10`).  Each iteration: check and consume the skip flag (lines
66-69); stop if the per-category cap is already reached (lines 71-73); load
the page (timeouts and exceptions break, lines 190-197); filter the payload
products; if any survived, reload-merge-save the store (lines 172-177); stop
when no record survived on a page beyond the first (lines 179-181); stop when
the cap is reached (lines 183-185); else advance.  `sched n = true` means
the operator sets the skip flag while page `n` is being processed. -/
def scrapeCategoryProductsPlaywrightAux (o : Nat → PageLoad (List URaw))
    (sched : Nat → Bool) (categoryUrl categoryName : String) (maxProducts : Nat)
    (existing : PDict) :
    Nat → Nat → CrawlState → List PageVisit × CrawlState
  | 0, _, st => ([], st)
  | fuel + 1, pageNum, st =>
    if st.flag = true then ([], { st with flag := false })
    else if maxProducts ≤ st.newProducts.length then ([], st)
    else
      match o pageNum with
      | .timeout =>
        ([⟨pageNum, unimarcPageUrl categoryUrl pageNum, .timeout⟩], { st with flag := sched pageNum })
      | .error =>
        ([⟨pageNum, unimarcPageUrl categoryUrl pageNum, .error⟩], { st with flag := sched pageNum })
      | .ok rawList =>
        let fp := unimarcFilter categoryName maxProducts existing st.newProducts rawList
        let doc' := if fp.1.isEmpty = true then st.doc
          else save_products (dictUpdate (load_existing_products st.doc).dict fp.2)
        let st' : CrawlState := ⟨doc', fp.2, sched pageNum⟩
        let visit : PageVisit := ⟨pageNum, unimarcPageUrl categoryUrl pageNum, .ok fp.1.length⟩
        if fp.1.isEmpty = true ∧ 1 < pageNum then ([visit], st')
        else if maxProducts ≤ fp.2.length then ([visit], st')
        else
          let rest := scrapeCategoryProductsPlaywrightAux o sched categoryUrl categoryName
            maxProducts existing fuel (pageNum + 1) st'
          (visit :: rest.1, rest.2)

/-- `scrape_category_products_playwright` of scraper-unimarc.py: run the
page loop from page 1 with the page cap `max_pages = 10`, an empty
`new_products`, the given store document, per-category cap (the script
passes 300), and initial skip-flag value. -/
def scrape_category_products_playwright (o : Nat → PageLoad (List URaw))
    (sched : Nat → Bool) (categoryUrl categoryName : String) (maxProducts : Nat)
    (existing : PDict) (doc : StoreDoc) (flag : Bool) : List PageVisit × CrawlState :=
  scrapeCategoryProductsPlaywrightAux o sched categoryUrl categoryName maxProducts existing
    10 1 ⟨doc, [], flag⟩

/-- Effects observable on the way out of both scripts' `main` (lines 385-459
of scraper-jumbo.py and 225-290 of scraper-unimarc.py): the final
`save_products` call and the `finally: browser.close()`. -/
inductive MainEvent where
  | finalSaveAttempt
  | browserClose
deriving DecidableEq, Repr

/-- Python `try: body finally: cleanup`: the cleanup effects run after the
body's, whether or not the body raised; the body's raised-flag propagates. -/
def tryFinallyTrace (body : List MainEvent × Bool) (cleanup : List MainEvent) :
    List MainEvent × Bool :=
  (body.1 ++ cleanup, body.2)

/-- The `try` body of `main`: the category loop (whose per-category
exceptions are caught by the inner `except`, lines 449-451 and 281-283)
followed by the final `save_products` call, which is inside the `try` block
(lines 453-455 and 285-287).  `bodyRaises` covers a fatal error raised
before the final save; `finalSaveRaises` a failure of the final save call
itself (the attempt still happens). -/
def mainBodyTrace (bodyRaises finalSaveRaises : Bool) : List MainEvent × Bool :=
  if bodyRaises then ([], true)
  else ([MainEvent.finalSaveAttempt], finalSaveRaises)

/-- Exit-path effect model of both scripts' `main`: the browser launch and
`new_page` (lines 406-412 and 245-251) happen before the `try`/`finally` is
entered, so a launch failure skips both the final save and `browser.close()`;
otherwise the body runs under `finally: browser.close()`.  The second
component is whether an exception propagates out (non-zero process exit). -/
def mainModel (launchRaises bodyRaises finalSaveRaises : Bool) :
    List MainEvent × Bool :=
  if launchRaises then ([], true)
  else tryFinallyTrace (mainBodyTrace bodyRaises finalSaveRaises) [MainEvent.browserClose]

/-- The jumbo per-page validity test (scraper-jumbo.py line 294). -/
def jumboValidRec (p : Product) : Prop :=
  strTruthy p.name = true ∧ (p.price ≠ none ∨ strTruthy p.product_url = true)

/-- Invariant satisfied by every entry the jumbo crawler puts into
`new_products`: the map key is the record's truthy identity key, the key is
not in `existing_products`, and the record passed the jumbo validity test. -/
def jumboGood (existing : PDict) (kv : String × Product) : Prop :=
  identityKey kv.2 = some kv.1 ∧ kv.1 ≠ "" ∧ keyMem kv.1 existing = false ∧
    jumboValidRec kv.2

/-- Invariant satisfied by every entry the unimarc crawler puts into
`new_products`: the map key is the record's truthy identity key and is not
in `existing_products` (this script has no further validity test). -/
def unimarcGood (existing : PDict) (kv : String × Product) : Prop :=
  identityKey kv.2 = some kv.1 ∧ kv.1 ≠ "" ∧ keyMem kv.1 existing = false

/-- A record whose derived identity key is truthy (non-null, non-empty). -/
def truthyKeyRec (r : Product) : Prop :=
  strTruthy (identityKey r) = true

/-! ### Concrete oracles for witnesses and counterexamples -/

/-- A keyboard schedule under which the operator never sets the skip flag. -/
def noSkip : Nat → Bool := fun _ => false

/-- Jumbo extractor oracle: every page reports a next button and yields one
fresh valid record. -/
def c5JumboOracle : Nat → PageLoad JumboPageData := fun n =>
  .ok ⟨[{ id := some ("p" ++ Nat.repr n), name := some "x", price := some 1 }], true, none, 0⟩

/-- Unimarc extractor oracle: every page yields one fresh identifiable
payload product. -/
def c5UnimarcOracle : Nat → PageLoad (List URaw) := fun n =>
  .ok [{ productId := some ("u" ++ Nat.repr n) }]

/-- Jumbo oracle: one valid record on page 1, nothing afterwards. -/
def c4Oracle : Nat → PageLoad JumboPageData := fun n =>
  if n = 1 then .ok ⟨[{ id := some "a", name := some "x", price := some 1 }], true, none, 0⟩
  else .ok ⟨[], true, none, 0⟩

/-- Unimarc payload oracle: a single product carrying only a `productId` —
`name`, `nameComplete`, `sellers` and `detailUrl` all absent — on page 1. -/
def c3Oracle : Nat → PageLoad (List URaw) := fun n =>
  if n = 1 then .ok [{ productId := some "x" }] else .ok []

/-- Jumbo oracle with one valid record on page 1, used for the C3 witness. -/
def c3wOracle : Nat → PageLoad JumboPageData := fun n =>
  if n = 1 then .ok ⟨[{ id := some "a", name := some "x", price := some 1 }], true, none, 0⟩
  else .ok ⟨[], true, none, 0⟩

/-- Jumbo oracle that always times out. -/
def c6TimeoutOracle : Nat → PageLoad JumboPageData := fun _ => .timeout

/-- Unimarc oracle that always times out. -/
def c6uTimeoutOracle : Nat → PageLoad (List URaw) := fun _ => .timeout

/-- Jumbo oracle: a valid record on page 1, an empty page afterwards. -/
def c7Oracle : Nat → PageLoad JumboPageData := fun n =>
  if n = 1 then .ok ⟨[{ id := some "a", name := some "x", price := some 1 }], true, none, 0⟩
  else .ok ⟨[], true, none, 0⟩

/-- Keyboard schedule: the operator types `s` while page 2 is being
processed (after the top-of-loop check of iteration 2). -/
def c7Sched : Nat → Bool := fun n => n == 2

/-! ### Lemmas and claim theorems -/

/-! ### Association-list lemmas -/

lemma keyMem_false_iff (k : String) (l : PDict) :
    keyMem k l = false ↔ k ∉ l.map Prod.fst := by
  rw [← Bool.not_eq_true]
  simp only [keyMem, List.any_eq_true, beq_iff_eq, List.mem_map]

lemma keyMem_append (k : String) (l₁ l₂ : PDict) :
    keyMem k (l₁ ++ l₂) = (keyMem k l₁ || keyMem k l₂) := by
  simp [keyMem, List.any_append]

lemma mem_dictInsert {kv : String × Product} {k : String} {v : Product} {l : PDict}
    (h : kv ∈ dictInsert k v l) : kv = (k, v) ∨ kv ∈ l := by
  induction l with
  | nil => simpa [dictInsert] using h
  | cons kv' rest ih =>
    by_cases hk : kv'.1 = k
    · simp only [dictInsert, if_pos hk] at h
      rcases List.mem_cons.mp h with h | h
      · exact Or.inl h
      · exact Or.inr (List.mem_cons_of_mem _ h)
    · simp only [dictInsert, if_neg hk] at h
      rcases List.mem_cons.mp h with h | h
      · exact Or.inr (List.mem_cons.mpr (Or.inl h))
      · rcases ih h with h' | h'
        · exact Or.inl h'
        · exact Or.inr (List.mem_cons_of_mem _ h')

lemma dictInsert_of_keyMem_false {k : String} {v : Product} {l : PDict}
    (h : keyMem k l = false) : dictInsert k v l = l ++ [(k, v)] := by
  induction l with
  | nil => rfl
  | cons kv rest ih =>
    simp only [keyMem, List.any_cons, Bool.or_eq_false_iff] at h
    have h1 : kv.1 ≠ k := by simpa using h.1
    simp only [dictInsert, if_neg h1, List.cons_append]
    congr 1
    exact ih h.2

lemma lookup_dictInsert (k k' : String) (v : Product) (l : PDict) :
    List.lookup k' (dictInsert k v l) =
      if k' = k then some v else List.lookup k' l := by
  induction l with
  | nil =>
    by_cases h : k' = k
    · simp [dictInsert, List.lookup, h]
    · have hb : (k' == k) = false := beq_eq_false_iff_ne.mpr h
      simp [dictInsert, List.lookup, hb, h]
  | cons kv rest ih =>
    obtain ⟨a, b⟩ := kv
    by_cases hk : a = k
    · subst hk
      by_cases h : k' = a
      · have hb : (k' == a) = true := beq_iff_eq.mpr h
        simp [dictInsert, List.lookup, hb, h]
      · have hb : (k' == a) = false := beq_eq_false_iff_ne.mpr h
        simp [dictInsert, List.lookup, hb, h]
    · by_cases h : k' = a
      · subst h
        simp [dictInsert, if_neg hk, List.lookup, hk]
      · have hb : (k' == a) = false := beq_eq_false_iff_ne.mpr h
        simp [dictInsert, if_neg hk, List.lookup, hb, ih]

lemma map_fst_dictInsert (k : String) (v : Product) (l : PDict) :
    (dictInsert k v l).map Prod.fst =
      if keyMem k l then l.map Prod.fst else l.map Prod.fst ++ [k] := by
  induction l with
  | nil => simp [dictInsert, keyMem]
  | cons kv rest ih =>
    by_cases hk : kv.1 = k
    · simp [dictInsert, hk, keyMem, List.any_cons]
    · have hbeq : (kv.1 == k) = false := by simpa using hk
      simp only [dictInsert, if_neg hk, List.map_cons, keyMem, List.any_cons, hbeq,
        Bool.false_or]
      rw [show (List.any rest fun kv => kv.1 == k) = keyMem k rest from rfl, ih]
      by_cases hm : keyMem k rest <;> simp [hm]

lemma nodup_map_fst_dictInsert {k : String} {v : Product} {l : PDict}
    (h : (l.map Prod.fst).Nodup) : ((dictInsert k v l).map Prod.fst).Nodup := by
  rw [map_fst_dictInsert]
  by_cases hm : keyMem k l
  · simpa [hm] using h
  · have hk : k ∉ l.map Prod.fst := (keyMem_false_iff k l).mp (by simpa using hm)
    simp [hm, List.nodup_append, h, hk]

/-! ### Store lemmas -/

lemma comprehendAux_mem :
    ∀ (items : List JsonItem) (acc d : PDict),
      comprehendAux acc items = .ok d →
      ∀ kv ∈ d, kv ∈ acc ∨ JsonItem.obj kv.2 ∈ items := by
  intro items
  induction items with
  | nil =>
    intro acc d h kv hkv
    simp only [comprehendAux, Except.ok.injEq] at h
    exact Or.inl (h ▸ hkv)
  | cons it rest ih =>
    intro acc d h kv hkv
    match it with
    | .nonObj => simp [comprehendAux] at h
    | .obj r =>
      rcases hik : identityKey r with _ | k
      · simp only [comprehendAux, hik] at h
        rcases ih acc d h kv hkv with h' | h'
        · exact Or.inl h'
        · exact Or.inr (List.mem_cons_of_mem _ h')
      · by_cases hk : k = ""
        · simp only [comprehendAux, hik, if_pos hk] at h
          rcases ih acc d h kv hkv with h' | h'
          · exact Or.inl h'
          · exact Or.inr (List.mem_cons_of_mem _ h')
        · simp only [comprehendAux, hik, if_neg hk] at h
          rcases ih _ d h kv hkv with h' | h'
          · rcases mem_dictInsert h' with h'' | h''
            · refine Or.inr (List.mem_cons.mpr (Or.inl ?_))
              rw [h'']
            · exact Or.inl h''
          · exact Or.inr (List.mem_cons_of_mem _ h')

lemma comprehendAux_keyed :
    ∀ (items : List JsonItem) (acc d : PDict),
      (∀ kv ∈ acc, identityKey kv.2 = some kv.1 ∧ kv.1 ≠ "") →
      comprehendAux acc items = .ok d →
      ∀ kv ∈ d, identityKey kv.2 = some kv.1 ∧ kv.1 ≠ "" := by
  intro items
  induction items with
  | nil =>
    intro acc d hacc h kv hkv
    simp only [comprehendAux, Except.ok.injEq] at h
    exact hacc kv (h ▸ hkv)
  | cons it rest ih =>
    intro acc d hacc h kv hkv
    match it with
    | .nonObj => simp [comprehendAux] at h
    | .obj r =>
      rcases hik : identityKey r with _ | k
      · simp only [comprehendAux, hik] at h
        exact ih acc d hacc h kv hkv
      · by_cases hk : k = ""
        · simp only [comprehendAux, hik, if_pos hk] at h
          exact ih acc d hacc h kv hkv
        · simp only [comprehendAux, hik, if_neg hk] at h
          refine ih _ d ?_ h kv hkv
          intro kv' hkv'
          rcases mem_dictInsert hkv' with h' | h'
          · rw [h']
            exact ⟨hik, hk⟩
          · exact hacc kv' h'

lemma comprehendAux_nodup :
    ∀ (items : List JsonItem) (acc d : PDict),
      (acc.map Prod.fst).Nodup →
      comprehendAux acc items = .ok d →
      (d.map Prod.fst).Nodup := by
  intro items
  induction items with
  | nil =>
    intro acc d hacc h
    simp only [comprehendAux, Except.ok.injEq] at h
    exact h ▸ hacc
  | cons it rest ih =>
    intro acc d hacc h
    match it with
    | .nonObj => simp [comprehendAux] at h
    | .obj r =>
      rcases hik : identityKey r with _ | k
      · simp only [comprehendAux, hik] at h
        exact ih acc d hacc h
      · by_cases hk : k = ""
        · simp only [comprehendAux, hik, if_pos hk] at h
          exact ih acc d hacc h
        · simp only [comprehendAux, hik, if_neg hk] at h
          exact ih _ d (nodup_map_fst_dictInsert hacc) h

lemma comprehendAux_append :
    ∀ (l acc : PDict),
      (∀ kv ∈ l, identityKey kv.2 = some kv.1 ∧ kv.1 ≠ "") →
      (l.map Prod.fst).Nodup →
      (∀ kv ∈ l, keyMem kv.1 acc = false) →
      comprehendAux acc (l.map fun kv => .obj kv.2) = .ok (acc ++ l) := by
  intro l
  induction l with
  | nil => intro acc _ _ _; simp [comprehendAux]
  | cons kv rest ih =>
    intro acc hkeys hnodup hfresh
    obtain ⟨hkv, hne⟩ := hkeys kv (List.mem_cons_self _ _)
    have hfreshkv : keyMem kv.1 acc = false := hfresh kv (List.mem_cons_self _ _)
    simp only [List.map_cons, comprehendAux, hkv, if_neg hne]
    rw [dictInsert_of_keyMem_false hfreshkv]
    rw [List.map_cons] at hnodup
    obtain ⟨hnotin, hnodup'⟩ := List.nodup_cons.mp hnodup
    rw [ih (acc ++ [(kv.1, kv.2)])
      (fun kv' h' => hkeys kv' (List.mem_cons_of_mem _ h'))
      hnodup'
      ?_]
    · simp
    · intro kv' h'
      rw [keyMem_append]
      have h1 : keyMem kv'.1 acc = false := hfresh kv' (List.mem_cons_of_mem _ h')
      have h2 : keyMem kv'.1 [(kv.1, kv.2)] = false := by
        have hne' : kv.1 ≠ kv'.1 := by
          intro hcontr
          exact hnotin (hcontr ▸ List.mem_map.mpr ⟨kv', h', rfl⟩)
        simp [keyMem, hne']
      rw [h1, h2]
      simp

lemma find?_append {α : Type} (p : α → Bool) (l₁ l₂ : List α) :
    (l₁ ++ l₂).find? p =
      match l₁.find? p with
      | some a => some a
      | none => l₂.find? p := by
  induction l₁ with
  | nil => simp
  | cons a rest ih =>
    by_cases h : p a
    · simp [List.find?_cons, h]
    · have hb : p a = false := by simpa using h
      simp [List.find?_cons, hb, ih]

lemma comprehendAux_lookup :
    ∀ (rs : List Product) (acc : PDict) (k : String), k ≠ "" →
      ∃ d, comprehendAux acc (rs.map .obj) = .ok d ∧
        List.lookup k d =
          match rs.reverse.find? (fun r => identityKey r == some k) with
          | some r => some r
          | none => List.lookup k acc := by
  intro rs
  induction rs with
  | nil => intro acc k _; exact ⟨acc, by simp [comprehendAux], by simp⟩
  | cons r rest ih =>
    intro acc k hk
    rcases hik : identityKey r with _ | k'
    · obtain ⟨d, hd, hl⟩ := ih acc k hk
      refine ⟨d, by simpa [comprehendAux, hik] using hd, ?_⟩
      rw [hl]
      have hfr : (fun r => identityKey r == some k) r = false := by
        simp [hik]
      rw [List.reverse_cons, find?_append]
      rcases rest.reverse.find? (fun r => identityKey r == some k) with _ | r'
      · simp [List.find?_cons, hfr]
      · simp
    · by_cases hk' : k' = ""
      · obtain ⟨d, hd, hl⟩ := ih acc k hk
        refine ⟨d, by simpa [comprehendAux, hik, if_pos hk'] using hd, ?_⟩
        rw [hl]
        have hfr : (fun r => identityKey r == some k) r = false := by
          subst hk'
          simp [hik]
          intro hcontr
          exact hk hcontr.symm
        rw [List.reverse_cons, find?_append]
        rcases rest.reverse.find? (fun r => identityKey r == some k) with _ | r'
        · simp [List.find?_cons, hfr]
        · simp
      · obtain ⟨d, hd, hl⟩ := ih (dictInsert k' r acc) k hk
        refine ⟨d, by simpa [comprehendAux, hik, if_neg hk'] using hd, ?_⟩
        rw [hl, List.reverse_cons, find?_append]
        rcases rest.reverse.find? (fun r => identityKey r == some k) with _ | r'
        · rw [lookup_dictInsert]
          by_cases hkk : k = k'
          · have hfr : (fun r => identityKey r == some k) r = true := by
              simp [hik, hkk]
            simp [List.find?_cons, hfr, if_pos hkk]
          · have hfr : (fun r => identityKey r == some k) r = false := by
              simp [hik]
              intro hcontr
              exact hkk hcontr.symm
            simp [List.find?_cons, hfr, if_neg hkk]
        · simp

/-! ### Claims about the Persistent Store -/

/-- C2: Round-trip persistence.  For every collection of product records
keyed so that each value's derived identity key (`product_url` if present,
else `id`) equals its map key and is non-empty, `save_products` followed by
`load_existing_products` on the produced document returns exactly the same
collection — the same identity keys with the same field values, nothing
lost, destructively coerced, or duplicated (and no warning is raised). -/
theorem claim2_round_trip (l : PDict)
    (hkeys : ∀ kv ∈ l, identityKey kv.2 = some kv.1 ∧ kv.1 ≠ "")
    (hnodup : (l.map Prod.fst).Nodup) :
    load_existing_products (save_products l) = ⟨l, false⟩ := by
  have h := comprehendAux_append l [] hkeys hnodup (fun kv _ => rfl)
  simp only [save_products, load_existing_products]
  rw [h]
  simp

/-- Witness for C2: a concrete two-record collection survives the
save/load round trip unchanged. -/
theorem claim2_witness :
    load_existing_products (save_products
      [("url/a", { id := some "a", name := some "Milk", price := some 1000,
                   product_url := some "url/a" }),
       ("b", { id := some "b", name := some "Bread", price := some 500 })]) =
      ⟨[("url/a", { id := some "a", name := some "Milk", price := some 1000,
                    product_url := some "url/a" }),
        ("b", { id := some "b", name := some "Bread", price := some 500 })], false⟩ :=
  claim2_round_trip _ (by decide) (by decide)

/-- C9: `load_existing_products` never raises to its caller: a missing
document yields an empty collection (silently), an unparsable document
yields a warning and an empty collection, and any exception inside the
keying comprehension is caught by the except clause, again yielding a
warning and an empty collection.  The embedded function is total, exactly
as the catch-all `except (json.JSONDecodeError, Exception)` makes the
Python function. -/
theorem claim9_load_never_raises :
    load_existing_products .missing = ⟨[], false⟩ ∧
    load_existing_products .malformed = ⟨[], true⟩ ∧
    (∀ (items : List JsonItem) (e : Unit), comprehendAux [] items = .error e →
      load_existing_products (.array items) = ⟨[], true⟩) := by
  refine ⟨rfl, rfl, ?_⟩
  intro items e h
  simp only [load_existing_products]
  rw [h]

/-- Witness for C9: a document whose array holds a non-object item makes the
comprehension raise, and load returns the warned empty collection. -/
theorem claim9_witness :
    load_existing_products (.array [.nonObj]) = ⟨[], true⟩ :=
  claim9_load_never_raises.2.2 [.nonObj] () rfl

/-- C10: last-write-wins de-duplication on load.  For every on-disk array of
record objects and every non-empty key, the loaded collection's entry at that
key is exactly the last record in the array deriving that identity key (none
if no record derives it); and the loaded collection always has duplicate-free
identity keys even when the document does not. -/
theorem claim10_last_wins :
    (∀ (rs : List Product) (k : String), k ≠ "" →
      List.lookup k (load_existing_products (.array (rs.map .obj))).dict =
        rs.reverse.find? (fun r => identityKey r == some k)) ∧
    (∀ doc : StoreDoc, ((load_existing_products doc).dict.map Prod.fst).Nodup) := by
  constructor
  · intro rs k hk
    obtain ⟨d, hd, hl⟩ := comprehendAux_lookup rs [] k hk
    simp only [load_existing_products]
    rw [hd]
    simp only
    rw [hl]
    rcases rs.reverse.find? (fun r => identityKey r == some k) with _ | r
    · simp
    · rfl
  · intro doc
    match doc with
    | .missing => simp [load_existing_products]
    | .malformed => simp [load_existing_products]
    | .array items =>
      simp only [load_existing_products]
      rcases h : comprehendAux [] items with e | d
      · simp
      · simpa using comprehendAux_nodup items [] d (by simp) h

/-- Witness for C10: with two records deriving the same key, the loaded entry
is the later record. -/
theorem claim10_witness :
    List.lookup "k" (load_existing_products (.array
      ([{ id := some "k", name := some "first" },
        { id := some "k", name := some "second" }].map .obj))).dict =
      ([{ id := some "k", name := some "first" },
        { id := some "k", name := some "second" }] : List Product).reverse.find?
        (fun r => identityKey r == some "k") :=
  claim10_last_wins.1 _ "k" (by decide)

/-! ### Filter lemmas -/

lemma identityKey_stamp (p : Product) (cn : String) :
    identityKey { p with category := some cn } = identityKey p := rfl

lemma jumboFilter_mem_snd (categoryName : String) (existing : PDict) :
    ∀ (ps : List Product) (acc : PDict) (kv : String × Product),
      kv ∈ (jumboFilter categoryName existing acc ps).2 →
      kv ∈ acc ∨ ∃ p, p ∈ ps ∧
        identityKey p = some kv.1 ∧ kv.1 ≠ "" ∧ keyMem kv.1 existing = false ∧
        jumboValidRec p ∧ kv.2 = { p with category := some categoryName } := by
  intro ps
  induction ps with
  | nil =>
    intro acc kv hkv
    simp only [jumboFilter] at hkv
    exact Or.inl hkv
  | cons p rest ih =>
    intro acc kv hkv
    simp only [jumboFilter] at hkv
    split at hkv
    · rename_i hvalid
      split at hkv
      · rename_i k heq
        split at hkv
        · rename_i hcond
          simp only at hkv
          rcases ih _ kv hkv with h' | ⟨q, hq, hrest⟩
          · rcases mem_dictInsert h' with h'' | h''
            · refine Or.inr ⟨p, List.mem_cons_self _ _, ?_, ?_, ?_, ?_, ?_⟩
              · rw [show kv.1 = k from congrArg Prod.fst h'']
                exact heq
              · rw [show kv.1 = k from congrArg Prod.fst h'']
                exact hcond.1
              · rw [show kv.1 = k from congrArg Prod.fst h'']
                exact hcond.2.1
              · exact hvalid
              · exact congrArg Prod.snd h''
            · exact Or.inl h''
          · exact Or.inr ⟨q, List.mem_cons_of_mem _ hq, hrest⟩
        · rcases ih _ kv hkv with h' | ⟨q, hq, hrest⟩
          · exact Or.inl h'
          · exact Or.inr ⟨q, List.mem_cons_of_mem _ hq, hrest⟩
      · rcases ih _ kv hkv with h' | ⟨q, hq, hrest⟩
        · exact Or.inl h'
        · exact Or.inr ⟨q, List.mem_cons_of_mem _ hq, hrest⟩
    · rcases ih _ kv hkv with h' | ⟨q, hq, hrest⟩
      · exact Or.inl h'
      · exact Or.inr ⟨q, List.mem_cons_of_mem _ hq, hrest⟩

lemma unimarcFilter_mem_snd (categoryName : String) (maxProducts : Nat) (existing : PDict) :
    ∀ (ps : List URaw) (acc : PDict) (kv : String × Product),
      kv ∈ (unimarcFilter categoryName maxProducts existing acc ps).2 →
      kv ∈ acc ∨ ∃ raw, raw ∈ ps ∧
        pyOr (uProductUrl raw) (uProductId raw) = some kv.1 ∧ kv.1 ≠ "" ∧
        keyMem kv.1 existing = false ∧ kv.2 = buildURecord categoryName raw := by
  intro ps
  induction ps with
  | nil =>
    intro acc kv hkv
    simp only [unimarcFilter] at hkv
    exact Or.inl hkv
  | cons raw rest ih =>
    intro acc kv hkv
    simp only [unimarcFilter] at hkv
    split at hkv
    · exact Or.inl hkv
    · split at hkv
      · rename_i k heq
        split at hkv
        · rename_i hcond
          simp only at hkv
          rcases ih _ kv hkv with h' | ⟨q, hq, hrest⟩
          · rcases mem_dictInsert h' with h'' | h''
            · refine Or.inr ⟨raw, List.mem_cons_self _ _, ?_, ?_, ?_, ?_⟩
              · rw [show kv.1 = k from congrArg Prod.fst h'']
                exact heq
              · rw [show kv.1 = k from congrArg Prod.fst h'']
                exact hcond.1
              · rw [show kv.1 = k from congrArg Prod.fst h'']
                exact hcond.2.1
              · exact congrArg Prod.snd h''
            · exact Or.inl h''
          · exact Or.inr ⟨q, List.mem_cons_of_mem _ hq, hrest⟩
        · rcases ih _ kv hkv with h' | ⟨q, hq, hrest⟩
          · exact Or.inl h'
          · exact Or.inr ⟨q, List.mem_cons_of_mem _ hq, hrest⟩
      · rcases ih _ kv hkv with h' | ⟨q, hq, hrest⟩
        · exact Or.inl h'
        · exact Or.inr ⟨q, List.mem_cons_of_mem _ hq, hrest⟩

lemma jumboFilter_good (categoryName : String) (existing : PDict)
    (ps : List Product) (acc : PDict)
    (hacc : ∀ kv ∈ acc, jumboGood existing kv) :
    ∀ kv ∈ (jumboFilter categoryName existing acc ps).2, jumboGood existing kv := by
  intro kv hkv
  rcases jumboFilter_mem_snd categoryName existing ps acc kv hkv with h | ⟨p, _, hik, hne, hex, hvalid, hval⟩
  · exact hacc kv h
  · refine ⟨?_, hne, hex, ?_⟩
    · rw [hval, identityKey_stamp, hik]
    · rw [hval]
      exact hvalid

lemma identityKey_buildURecord (categoryName : String) (raw : URaw) :
    identityKey (buildURecord categoryName raw) =
      pyOr (uProductUrl raw) (uProductId raw) := rfl

lemma unimarcFilter_good (categoryName : String) (maxProducts : Nat) (existing : PDict)
    (ps : List URaw) (acc : PDict)
    (hacc : ∀ kv ∈ acc, unimarcGood existing kv) :
    ∀ kv ∈ (unimarcFilter categoryName maxProducts existing acc ps).2,
      unimarcGood existing kv := by
  intro kv hkv
  rcases unimarcFilter_mem_snd categoryName maxProducts existing ps acc kv hkv with
    h | ⟨raw, _, hik, hne, hex, hval⟩
  · exact hacc kv h
  · refine ⟨?_, hne, hex⟩
    rw [hval, identityKey_buildURecord, hik]

/-! ### Crawl-loop invariants -/

lemma scrapeCategoryProductsAux_new_inv (o : Nat → PageLoad JumboPageData)
    (sched : Nat → Bool) (cu cn : String) (ex : PDict) :
    ∀ (fuel pageNum : Nat) (st : CrawlState),
      (∀ kv ∈ st.newProducts, jumboGood ex kv) →
      ∀ kv ∈ (scrapeCategoryProductsAux o sched cu cn ex fuel pageNum st).2.newProducts,
        jumboGood ex kv := by
  intro fuel
  induction fuel with
  | zero =>
    intro pageNum st hst kv hkv
    simp only [scrapeCategoryProductsAux] at hkv
    exact hst kv hkv
  | succ f ih =>
    intro pageNum st hst kv hkv
    simp only [scrapeCategoryProductsAux] at hkv
    split at hkv
    · exact hst kv hkv
    · split at hkv
      · exact hst kv hkv
      · exact hst kv hkv
      · rename_i d hd
        have hgood := jumboFilter_good cn ex d.products st.newProducts hst
        split at hkv
        · exact hgood kv hkv
        · split at hkv
          · exact hgood kv hkv
          · exact ih (pageNum + 1) _ hgood kv hkv

lemma scrapeCategoryProductsPlaywrightAux_new_inv (o : Nat → PageLoad (List URaw))
    (sched : Nat → Bool) (cu cn : String) (maxP : Nat) (ex : PDict) :
    ∀ (fuel pageNum : Nat) (st : CrawlState),
      (∀ kv ∈ st.newProducts, unimarcGood ex kv) →
      ∀ kv ∈ (scrapeCategoryProductsPlaywrightAux o sched cu cn maxP ex fuel pageNum st).2.newProducts,
        unimarcGood ex kv := by
  intro fuel
  induction fuel with
  | zero =>
    intro pageNum st hst kv hkv
    simp only [scrapeCategoryProductsPlaywrightAux] at hkv
    exact hst kv hkv
  | succ f ih =>
    intro pageNum st hst kv hkv
    simp only [scrapeCategoryProductsPlaywrightAux] at hkv
    split at hkv
    · exact hst kv hkv
    · split at hkv
      · exact hst kv hkv
      · split at hkv
        · exact hst kv hkv
        · exact hst kv hkv
        · rename_i rawList hraw
          have hgood := unimarcFilter_good cn maxP ex rawList st.newProducts hst
          split at hkv
          · exact hgood kv hkv
          · split at hkv
            · exact hgood kv hkv
            · exact ih (pageNum + 1) _ hgood kv hkv

lemma load_dict_sub (doc : StoreDoc) (kv : String × Product)
    (h : kv ∈ (load_existing_products doc).dict) :
    JsonItem.obj kv.2 ∈ docItems doc := by
  match doc with
  | .missing => simp [load_existing_products] at h
  | .malformed => simp [load_existing_products] at h
  | .array items =>
    simp only [load_existing_products] at h
    rcases heq : comprehendAux [] items with e | d
    · rw [heq] at h
      simp at h
    · rw [heq] at h
      simp only at h
      rcases comprehendAux_mem items [] d heq kv h with h' | h'
      · simp at h'
      · simpa [docItems] using h'

lemma mem_snd_dictInsert {v : Product} {k : String} {w : Product} {l : PDict}
    (h : v ∈ (dictInsert k w l).map Prod.snd) : v = w ∨ v ∈ l.map Prod.snd := by
  rcases List.mem_map.mp h with ⟨kv, hkv, hval⟩
  rcases mem_dictInsert hkv with h' | h'
  · left
    rw [← hval, h']
  · right
    exact List.mem_map.mpr ⟨kv, h', hval⟩

lemma mem_snd_dictUpdate :
    ∀ (upd base : PDict) (v : Product),
      v ∈ (dictUpdate base upd).map Prod.snd →
      v ∈ base.map Prod.snd ∨ v ∈ upd.map Prod.snd := by
  intro upd
  induction upd with
  | nil => intro base v h; exact Or.inl h
  | cons u us ih =>
    intro base v h
    have h' : v ∈ (dictUpdate (dictInsert u.1 u.2 base) us).map Prod.snd := h
    rcases ih _ v h' with h'' | h''
    · rcases mem_snd_dictInsert h'' with h3 | h3
      · right
        exact List.mem_map.mpr ⟨u, List.mem_cons_self _ _, h3.symm⟩
      · exact Or.inl h3
    · right
      rcases List.mem_map.mp h'' with ⟨kv, hkv, hval⟩
      exact List.mem_map.mpr ⟨kv, List.mem_cons_of_mem _ hkv, hval⟩

lemma store_write_inv (Q : Product → Prop) (doc0 doc : StoreDoc) (new : PDict)
    (hdoc : ∀ it ∈ docItems doc, it ∈ docItems doc0 ∨ ∃ r, it = .obj r ∧ Q r)
    (hnew : ∀ kv ∈ new, Q kv.2) :
    ∀ it ∈ docItems (save_products (dictUpdate (load_existing_products doc).dict new)),
      it ∈ docItems doc0 ∨ ∃ r, it = .obj r ∧ Q r := by
  intro it hit
  have hit' : it ∈ (dictUpdate (load_existing_products doc).dict new).map
      (fun kv => JsonItem.obj kv.2) := hit
  rcases List.mem_map.mp hit' with ⟨kv, hkv, hobj⟩
  have hv : kv.2 ∈ ((load_existing_products doc).dict).map Prod.snd ∨
      kv.2 ∈ new.map Prod.snd :=
    mem_snd_dictUpdate _ _ _ (List.mem_map.mpr ⟨kv, hkv, rfl⟩)
  rcases hv with hv | hv
  · rcases List.mem_map.mp hv with ⟨kv', hkv', hval⟩
    have hobj' : JsonItem.obj kv'.2 ∈ docItems doc := load_dict_sub doc kv' hkv'
    rcases hdoc _ hobj' with h' | h'
    · left
      rw [← hobj, ← hval]
      exact h'
    · right
      rcases h' with ⟨r, hr, hQ⟩
      refine ⟨r, ?_, hQ⟩
      rw [← hobj, ← hval]
      exact hr
  · rcases List.mem_map.mp hv with ⟨kv', hkv', hval⟩
    right
    exact ⟨kv.2, hobj.symm, hval ▸ hnew kv' hkv'⟩

lemma scrapeCategoryProductsAux_doc_inv (o : Nat → PageLoad JumboPageData)
    (sched : Nat → Bool) (cu cn : String) (ex : PDict) (doc0 : StoreDoc) :
    ∀ (fuel pageNum : Nat) (st : CrawlState),
      (∀ kv ∈ st.newProducts, jumboGood ex kv) →
      (∀ it ∈ docItems st.doc, it ∈ docItems doc0 ∨ ∃ r, it = .obj r ∧ jumboValidRec r) →
      ∀ it ∈ docItems (scrapeCategoryProductsAux o sched cu cn ex fuel pageNum st).2.doc,
        it ∈ docItems doc0 ∨ ∃ r, it = .obj r ∧ jumboValidRec r := by
  intro fuel
  induction fuel with
  | zero =>
    intro pageNum st _ hdoc it hit
    simp only [scrapeCategoryProductsAux] at hit
    exact hdoc it hit
  | succ f ih =>
    intro pageNum st hst hdoc it hit
    simp only [scrapeCategoryProductsAux] at hit
    split at hit
    · exact hdoc it hit
    · split at hit
      · exact hdoc it hit
      · exact hdoc it hit
      · rename_i d hd
        have hgood := jumboFilter_good cn ex d.products st.newProducts hst
        have hnewdoc : ∀ it' ∈ docItems (if (jumboFilter cn ex st.newProducts d.products).1.isEmpty = true
              then st.doc
              else save_products (dictUpdate (load_existing_products st.doc).dict
                (jumboFilter cn ex st.newProducts d.products).2)),
            it' ∈ docItems doc0 ∨ ∃ r, it' = .obj r ∧ jumboValidRec r := by
          intro it' hit'
          split at hit'
          · exact hdoc it' hit'
          · refine store_write_inv jumboValidRec doc0 st.doc _ hdoc ?_ it' hit'
            intro kv hkv
            exact (hgood kv hkv).2.2.2
        split at hit
        · exact hnewdoc it hit
        · split at hit
          · exact hnewdoc it hit
          · exact ih (pageNum + 1) _ hgood hnewdoc it hit

lemma truthyKeyRec_of_unimarcGood {ex : PDict} {kv : String × Product}
    (h : unimarcGood ex kv) : truthyKeyRec kv.2 := by
  obtain ⟨hik, hne, _⟩ := h
  simp [truthyKeyRec, hik, strTruthy, hne]

lemma scrapeCategoryProductsPlaywrightAux_doc_inv (o : Nat → PageLoad (List URaw))
    (sched : Nat → Bool) (cu cn : String) (maxP : Nat) (ex : PDict) (doc0 : StoreDoc) :
    ∀ (fuel pageNum : Nat) (st : CrawlState),
      (∀ kv ∈ st.newProducts, unimarcGood ex kv) →
      (∀ it ∈ docItems st.doc, it ∈ docItems doc0 ∨ ∃ r, it = .obj r ∧ truthyKeyRec r) →
      ∀ it ∈ docItems (scrapeCategoryProductsPlaywrightAux o sched cu cn maxP ex fuel pageNum st).2.doc,
        it ∈ docItems doc0 ∨ ∃ r, it = .obj r ∧ truthyKeyRec r := by
  intro fuel
  induction fuel with
  | zero =>
    intro pageNum st _ hdoc it hit
    simp only [scrapeCategoryProductsPlaywrightAux] at hit
    exact hdoc it hit
  | succ f ih =>
    intro pageNum st hst hdoc it hit
    simp only [scrapeCategoryProductsPlaywrightAux] at hit
    split at hit
    · exact hdoc it hit
    · split at hit
      · exact hdoc it hit
      · split at hit
        · exact hdoc it hit
        · exact hdoc it hit
        · rename_i rawList hraw
          have hgood := unimarcFilter_good cn maxP ex rawList st.newProducts hst
          have hnewdoc : ∀ it' ∈ docItems (if (unimarcFilter cn maxP ex st.newProducts rawList).1.isEmpty = true
                then st.doc
                else save_products (dictUpdate (load_existing_products st.doc).dict
                  (unimarcFilter cn maxP ex st.newProducts rawList).2)),
              it' ∈ docItems doc0 ∨ ∃ r, it' = .obj r ∧ truthyKeyRec r := by
            intro it' hit'
            split at hit'
            · exact hdoc it' hit'
            · refine store_write_inv truthyKeyRec doc0 st.doc _ hdoc ?_ it' hit'
              intro kv hkv
              exact truthyKeyRec_of_unimarcGood (hgood kv hkv)
          split at hit
          · exact hnewdoc it hit
          · split at hit
            · exact hnewdoc it hit
            · exact ih (pageNum + 1) _ hgood hnewdoc it hit

/-! ### Trace lemmas -/

lemma scrapeCategoryProductsAux_length (o : Nat → PageLoad JumboPageData)
    (sched : Nat → Bool) (cu cn : String) (ex : PDict) :
    ∀ (fuel pageNum : Nat) (st : CrawlState),
      (scrapeCategoryProductsAux o sched cu cn ex fuel pageNum st).1.length ≤ fuel := by
  intro fuel
  induction fuel with
  | zero => intro pageNum st; simp [scrapeCategoryProductsAux]
  | succ f ih =>
    intro pageNum st
    simp only [scrapeCategoryProductsAux]
    split
    · simp
    · split
      · simp
      · simp
      · split
        · simp
        · split
          · simp
          · simpa using Nat.succ_le_succ (ih (pageNum + 1) _)

lemma scrapeCategoryProductsAux_page_ge (o : Nat → PageLoad JumboPageData)
    (sched : Nat → Bool) (cu cn : String) (ex : PDict) :
    ∀ (fuel pageNum : Nat) (st : CrawlState) (v : PageVisit),
      v ∈ (scrapeCategoryProductsAux o sched cu cn ex fuel pageNum st).1 →
      pageNum ≤ v.pageNum := by
  intro fuel
  induction fuel with
  | zero => intro pageNum st v hv; simp [scrapeCategoryProductsAux] at hv
  | succ f ih =>
    intro pageNum st v hv
    simp only [scrapeCategoryProductsAux] at hv
    split at hv
    · simp at hv
    · split at hv
      · rw [List.mem_singleton] at hv
        rw [hv]
      · rw [List.mem_singleton] at hv
        rw [hv]
      · split at hv
        · rw [List.mem_singleton] at hv
          rw [hv]
        · split at hv
          · rw [List.mem_singleton] at hv
            rw [hv]
          · rcases List.mem_cons.mp hv with hv | hv
            · rw [hv]
            · exact Nat.le_of_succ_le (ih (pageNum + 1) _ v hv)

lemma scrapeCategoryProductsAux_url (o : Nat → PageLoad JumboPageData)
    (sched : Nat → Bool) (cu cn : String) (ex : PDict) :
    ∀ (fuel pageNum : Nat) (st : CrawlState) (v : PageVisit),
      v ∈ (scrapeCategoryProductsAux o sched cu cn ex fuel pageNum st).1 →
      v.url = jumboPageUrl cu v.pageNum := by
  intro fuel
  induction fuel with
  | zero => intro pageNum st v hv; simp [scrapeCategoryProductsAux] at hv
  | succ f ih =>
    intro pageNum st v hv
    simp only [scrapeCategoryProductsAux] at hv
    split at hv
    · simp at hv
    · split at hv
      · rw [List.mem_singleton] at hv
        rw [hv]
      · rw [List.mem_singleton] at hv
        rw [hv]
      · split at hv
        · rw [List.mem_singleton] at hv
          rw [hv]
        · split at hv
          · rw [List.mem_singleton] at hv
            rw [hv]
          · rcases List.mem_cons.mp hv with hv | hv
            · rw [hv]
            · exact ih (pageNum + 1) _ v hv

lemma scrapeCategoryProductsAux_zero_stop (o : Nat → PageLoad JumboPageData)
    (sched : Nat → Bool) (cu cn : String) (ex : PDict) :
    ∀ (fuel pageNum : Nat) (st : CrawlState) (v w : PageVisit),
      v ∈ (scrapeCategoryProductsAux o sched cu cn ex fuel pageNum st).1 →
      w ∈ (scrapeCategoryProductsAux o sched cu cn ex fuel pageNum st).1 →
      v.outcome = .ok 0 → 1 < v.pageNum → w.pageNum ≤ v.pageNum := by
  intro fuel
  induction fuel with
  | zero => intro pageNum st v w hv _ _ _; simp [scrapeCategoryProductsAux] at hv
  | succ f ih =>
    intro pageNum st v w hv hw hz hgt
    simp only [scrapeCategoryProductsAux] at hv hw
    split at hv
    · simp at hv
    · rename_i hflag
      rw [if_neg hflag] at hw
      split at hv
      · rename_i heq
        simp only [List.mem_singleton] at hv
        rw [hv] at hz
        simp at hz
      · rename_i heq
        simp only [List.mem_singleton] at hv
        rw [hv] at hz
        simp at hz
      · rename_i d heq
        simp only [heq] at hw
        split at hv
        · rename_i hstop
          rw [if_pos hstop] at hw
          simp only [List.mem_singleton] at hv hw
          rw [hv, hw]
        · rename_i hnostop1
          rw [if_neg hnostop1] at hw
          split at hv
          · rename_i hstop2
            rw [if_pos hstop2] at hw
            simp only [List.mem_singleton] at hv
            exfalso
            rw [hv] at hz hgt
            simp only [VisitOutcome.ok.injEq] at hz
            refine hnostop1 ⟨?_, by simpa using hgt⟩
            rw [List.isEmpty_iff_length_eq_zero]
            exact hz
          · rename_i hnostop2
            rw [if_neg hnostop2] at hw
            rcases List.mem_cons.mp hv with hv' | hv'
            · exfalso
              rw [hv'] at hz hgt
              simp only [VisitOutcome.ok.injEq] at hz
              refine hnostop1 ⟨?_, by simpa using hgt⟩
              rw [List.isEmpty_iff_length_eq_zero]
              exact hz
            · rcases List.mem_cons.mp hw with hw' | hw'
              · rw [hw']
                have hge : pageNum + 1 ≤ v.pageNum :=
                  scrapeCategoryProductsAux_page_ge o sched cu cn ex f (pageNum + 1) _ v hv'
                simpa using Nat.le_of_succ_le hge
              · exact ih (pageNum + 1) _ v w hv' hw' hz hgt

lemma scrapeCategoryProductsPlaywrightAux_length (o : Nat → PageLoad (List URaw))
    (sched : Nat → Bool) (cu cn : String) (maxP : Nat) (ex : PDict) :
    ∀ (fuel pageNum : Nat) (st : CrawlState),
      (scrapeCategoryProductsPlaywrightAux o sched cu cn maxP ex fuel pageNum st).1.length ≤ fuel := by
  intro fuel
  induction fuel with
  | zero => intro pageNum st; simp [scrapeCategoryProductsPlaywrightAux]
  | succ f ih =>
    intro pageNum st
    simp only [scrapeCategoryProductsPlaywrightAux]
    split
    · simp
    · split
      · simp
      · split
        · simp
        · simp
        · split
          · simp
          · split
            · simp
            · simpa using Nat.succ_le_succ (ih (pageNum + 1) _)

lemma scrapeCategoryProductsPlaywrightAux_page_ge (o : Nat → PageLoad (List URaw))
    (sched : Nat → Bool) (cu cn : String) (maxP : Nat) (ex : PDict) :
    ∀ (fuel pageNum : Nat) (st : CrawlState) (v : PageVisit),
      v ∈ (scrapeCategoryProductsPlaywrightAux o sched cu cn maxP ex fuel pageNum st).1 →
      pageNum ≤ v.pageNum := by
  intro fuel
  induction fuel with
  | zero => intro pageNum st v hv; simp [scrapeCategoryProductsPlaywrightAux] at hv
  | succ f ih =>
    intro pageNum st v hv
    simp only [scrapeCategoryProductsPlaywrightAux] at hv
    split at hv
    · simp at hv
    · split at hv
      · simp at hv
      · split at hv
        · rw [List.mem_singleton] at hv
          rw [hv]
        · rw [List.mem_singleton] at hv
          rw [hv]
        · split at hv
          · rw [List.mem_singleton] at hv
            rw [hv]
          · split at hv
            · rw [List.mem_singleton] at hv
              rw [hv]
            · rcases List.mem_cons.mp hv with hv | hv
              · rw [hv]
              · exact Nat.le_of_succ_le (ih (pageNum + 1) _ v hv)

lemma scrapeCategoryProductsPlaywrightAux_url (o : Nat → PageLoad (List URaw))
    (sched : Nat → Bool) (cu cn : String) (maxP : Nat) (ex : PDict) :
    ∀ (fuel pageNum : Nat) (st : CrawlState) (v : PageVisit),
      v ∈ (scrapeCategoryProductsPlaywrightAux o sched cu cn maxP ex fuel pageNum st).1 →
      v.url = unimarcPageUrl cu v.pageNum := by
  intro fuel
  induction fuel with
  | zero => intro pageNum st v hv; simp [scrapeCategoryProductsPlaywrightAux] at hv
  | succ f ih =>
    intro pageNum st v hv
    simp only [scrapeCategoryProductsPlaywrightAux] at hv
    split at hv
    · simp at hv
    · split at hv
      · simp at hv
      · split at hv
        · rw [List.mem_singleton] at hv
          rw [hv]
        · rw [List.mem_singleton] at hv
          rw [hv]
        · split at hv
          · rw [List.mem_singleton] at hv
            rw [hv]
          · split at hv
            · rw [List.mem_singleton] at hv
              rw [hv]
            · rcases List.mem_cons.mp hv with hv | hv
              · rw [hv]
              · exact ih (pageNum + 1) _ v hv

lemma scrapeCategoryProductsPlaywrightAux_zero_stop (o : Nat → PageLoad (List URaw))
    (sched : Nat → Bool) (cu cn : String) (maxP : Nat) (ex : PDict) :
    ∀ (fuel pageNum : Nat) (st : CrawlState) (v w : PageVisit),
      v ∈ (scrapeCategoryProductsPlaywrightAux o sched cu cn maxP ex fuel pageNum st).1 →
      w ∈ (scrapeCategoryProductsPlaywrightAux o sched cu cn maxP ex fuel pageNum st).1 →
      v.outcome = .ok 0 → 1 < v.pageNum → w.pageNum ≤ v.pageNum := by
  intro fuel
  induction fuel with
  | zero => intro pageNum st v w hv _ _ _; simp [scrapeCategoryProductsPlaywrightAux] at hv
  | succ f ih =>
    intro pageNum st v w hv hw hz hgt
    simp only [scrapeCategoryProductsPlaywrightAux] at hv hw
    split at hv
    · simp at hv
    · rename_i hflag
      rw [if_neg hflag] at hw
      split at hv
      · simp at hv
      · rename_i hcap
        rw [if_neg hcap] at hw
        split at hv
        · rename_i heq
          simp only [List.mem_singleton] at hv
          rw [hv] at hz
          simp at hz
        · rename_i heq
          simp only [List.mem_singleton] at hv
          rw [hv] at hz
          simp at hz
        · rename_i rawList heq
          simp only [heq] at hw
          split at hv
          · rename_i hstop
            rw [if_pos hstop] at hw
            simp only [List.mem_singleton] at hv hw
            rw [hv, hw]
          · rename_i hnostop1
            rw [if_neg hnostop1] at hw
            split at hv
            · rename_i hstop2
              rw [if_pos hstop2] at hw
              simp only [List.mem_singleton] at hv
              exfalso
              rw [hv] at hz hgt
              simp only [VisitOutcome.ok.injEq] at hz
              refine hnostop1 ⟨?_, by simpa using hgt⟩
              rw [List.isEmpty_iff_length_eq_zero]
              exact hz
            · rename_i hnostop2
              rw [if_neg hnostop2] at hw
              rcases List.mem_cons.mp hv with hv' | hv'
              · exfalso
                rw [hv'] at hz hgt
                simp only [VisitOutcome.ok.injEq] at hz
                refine hnostop1 ⟨?_, by simpa using hgt⟩
                rw [List.isEmpty_iff_length_eq_zero]
                exact hz
              · rcases List.mem_cons.mp hw with hw' | hw'
                · rw [hw']
                  have hge : pageNum + 1 ≤ v.pageNum :=
                    scrapeCategoryProductsPlaywrightAux_page_ge o sched cu cn maxP ex f
                      (pageNum + 1) _ v hv'
                  simpa using Nat.le_of_succ_le hge
                · exact ih (pageNum + 1) _ v w hv' hw' hz hgt

/-! ### Claims about the crawlers and the orchestrator -/

/-- C1: identity-key derivation.  The key is `product_url` whenever
`product_url` is present (truthy: non-null and non-empty — the sense in
which the Python `or` treats it), regardless of `id`; otherwise it is `id`.
Records with neither are discarded before any merge: every entry of the
collection `load_existing_products` returns, and every entry either crawler
adds to `new_products`, is keyed by its record's truthy identity key (and
the crawlers never merge a key already in `existing_products`). -/
theorem claim1_identity_key :
    (∀ r : Product, strTruthy r.product_url = true → identityKey r = r.product_url) ∧
    (∀ r : Product, strTruthy r.product_url = false → identityKey r = r.id) ∧
    (∀ (doc : StoreDoc) (kv : String × Product), kv ∈ (load_existing_products doc).dict →
      identityKey kv.2 = some kv.1 ∧ kv.1 ≠ "") ∧
    (∀ (o : Nat → PageLoad JumboPageData) (s : Nat → Bool) (cu cn : String)
       (ex : PDict) (d0 : StoreDoc) (fl : Bool) (kv : String × Product),
      kv ∈ (scrape_category_products o s cu cn ex d0 fl).2.newProducts →
      identityKey kv.2 = some kv.1 ∧ kv.1 ≠ "" ∧ keyMem kv.1 ex = false) ∧
    (∀ (o : Nat → PageLoad (List URaw)) (s : Nat → Bool) (cu cn : String) (maxP : Nat)
       (ex : PDict) (d0 : StoreDoc) (fl : Bool) (kv : String × Product),
      kv ∈ (scrape_category_products_playwright o s cu cn maxP ex d0 fl).2.newProducts →
      identityKey kv.2 = some kv.1 ∧ kv.1 ≠ "" ∧ keyMem kv.1 ex = false) := by
  refine ⟨?_, ?_, ?_, ?_, ?_⟩
  · intro r h
    simp [identityKey, pyOr, h]
  · intro r h
    simp [identityKey, pyOr, h]
  · intro doc kv hkv
    match doc with
    | .missing => simp [load_existing_products] at hkv
    | .malformed => simp [load_existing_products] at hkv
    | .array items =>
      simp only [load_existing_products] at hkv
      rcases heq : comprehendAux [] items with e | d
      · rw [heq] at hkv
        simp at hkv
      · rw [heq] at hkv
        simp only at hkv
        exact comprehendAux_keyed items [] d (by simp) heq kv hkv
  · intro o s cu cn ex d0 fl kv hkv
    have h := scrapeCategoryProductsAux_new_inv o s cu cn ex 50 1 ⟨d0, [], fl⟩ (by simp) kv hkv
    exact ⟨h.1, h.2.1, h.2.2.1⟩
  · intro o s cu cn maxP ex d0 fl kv hkv
    exact scrapeCategoryProductsPlaywrightAux_new_inv o s cu cn maxP ex 10 1 ⟨d0, [], fl⟩
      (by simp) kv hkv

/-- Witness for C1: a record with both fields present is keyed by its URL. -/
theorem claim1_witness :
    identityKey { id := some "fallback-id", product_url := some "https://site/p" } =
      some "https://site/p" :=
  claim1_identity_key.1 { id := some "fallback-id", product_url := some "https://site/p" }
    (by decide)

/-- C3 as stated is false on scraper-unimarc.py: its crawler applies no
name/price validity filter, only the identity-key/duplicate check (lines
146-147).  Concretely, a raw payload product with `name=null`, no sellers
(hence `price=null`), no `detailUrl` (hence `product_url=null`) but a
`productId` IS added to the per-category result set: after a crawl whose
page 1 yields exactly that product, `new_products` holds one record whose
`name`, `price` and `product_url` are all null, contradicting the claim that
such a record is never added regardless of its other fields. -/
theorem claim3_counterexample :
    (scrape_category_products_playwright c3Oracle noSkip
        "https://www.unimarc.cl/category/carnes" "carnes" 300 [] .missing false).2.newProducts =
      [("x", { id := some "x", category := some "carnes", currency := some "CLP" })] ∧
    ({ id := some "x", category := some "carnes", currency := some "CLP" } : Product).name = none ∧
    ({ id := some "x", category := some "carnes", currency := some "CLP" } : Product).price = none ∧
    ({ id := some "x", category := some "carnes", currency := some "CLP" } : Product).product_url
      = none := by
  decide

/-- C3 amended: the jumbo crawler never adds — to the per-category result
set or to the store document beyond what was already there — a record
failing its validity test (truthy name, and a non-null price or truthy
product URL); in particular a record with `name=null, price=null,
product_url=null` is never added by the jumbo crawler.  The unimarc crawler
guarantees only a truthy identity key: it discards records lacking a usable
identity key but applies no name/price filter (the counterexample's record,
with only an id, is added). -/
theorem claim3_amended_filtering :
    (∀ (o : Nat → PageLoad JumboPageData) (s : Nat → Bool) (cu cn : String)
       (ex : PDict) (d0 : StoreDoc) (fl : Bool) (kv : String × Product),
      kv ∈ (scrape_category_products o s cu cn ex d0 fl).2.newProducts →
      jumboValidRec kv.2) ∧
    (∀ (o : Nat → PageLoad JumboPageData) (s : Nat → Bool) (cu cn : String)
       (ex : PDict) (d0 : StoreDoc) (fl : Bool) (it : JsonItem),
      it ∈ docItems (scrape_category_products o s cu cn ex d0 fl).2.doc →
      it ∈ docItems d0 ∨ ∃ r, it = .obj r ∧ jumboValidRec r) ∧
    (∀ (o : Nat → PageLoad (List URaw)) (s : Nat → Bool) (cu cn : String) (maxP : Nat)
       (ex : PDict) (d0 : StoreDoc) (fl : Bool) (kv : String × Product),
      kv ∈ (scrape_category_products_playwright o s cu cn maxP ex d0 fl).2.newProducts →
      truthyKeyRec kv.2) ∧
    (∀ (o : Nat → PageLoad (List URaw)) (s : Nat → Bool) (cu cn : String) (maxP : Nat)
       (ex : PDict) (d0 : StoreDoc) (fl : Bool) (it : JsonItem),
      it ∈ docItems (scrape_category_products_playwright o s cu cn maxP ex d0 fl).2.doc →
      it ∈ docItems d0 ∨ ∃ r, it = .obj r ∧ truthyKeyRec r) := by
  refine ⟨?_, ?_, ?_, ?_⟩
  · intro o s cu cn ex d0 fl kv hkv
    exact (scrapeCategoryProductsAux_new_inv o s cu cn ex 50 1 ⟨d0, [], fl⟩ (by simp) kv hkv).2.2.2
  · intro o s cu cn ex d0 fl it hit
    exact scrapeCategoryProductsAux_doc_inv o s cu cn ex d0 50 1 ⟨d0, [], fl⟩ (by simp)
      (fun it' hit' => Or.inl hit') it hit
  · intro o s cu cn maxP ex d0 fl kv hkv
    exact truthyKeyRec_of_unimarcGood
      (scrapeCategoryProductsPlaywrightAux_new_inv o s cu cn maxP ex 10 1 ⟨d0, [], fl⟩
        (by simp) kv hkv)
  · intro o s cu cn maxP ex d0 fl it hit
    exact scrapeCategoryProductsPlaywrightAux_doc_inv o s cu cn maxP ex d0 10 1 ⟨d0, [], fl⟩
      (by simp) (fun it' hit' => Or.inl hit') it hit

/-- Witness for C3 (amended): an entry actually added by a jumbo crawl
satisfies the validity predicate. -/
theorem claim3_witness :
    jumboValidRec { id := some "a", name := some "x", category := some "n", price := some 1 } :=
  claim3_amended_filtering.1 c3wOracle noSkip "c" "n" [] .missing false
    ("a", { id := some "a", name := some "x", category := some "n", price := some 1 })
    (by decide)

/-- C4: pagination termination.  In both crawlers, if a loaded page `N` with
`N > 1` yields zero surviving (new, valid) records, the crawl stops there:
every page the crawl ever loads has number at most `N`, so page `N + 1` is
never loaded. -/
theorem claim4_pagination_termination :
    (∀ (o : Nat → PageLoad JumboPageData) (s : Nat → Bool) (cu cn : String)
       (ex : PDict) (d0 : StoreDoc) (fl : Bool) (v w : PageVisit),
      v ∈ (scrape_category_products o s cu cn ex d0 fl).1 →
      w ∈ (scrape_category_products o s cu cn ex d0 fl).1 →
      v.outcome = .ok 0 → 1 < v.pageNum → w.pageNum ≤ v.pageNum) ∧
    (∀ (o : Nat → PageLoad (List URaw)) (s : Nat → Bool) (cu cn : String) (maxP : Nat)
       (ex : PDict) (d0 : StoreDoc) (fl : Bool) (v w : PageVisit),
      v ∈ (scrape_category_products_playwright o s cu cn maxP ex d0 fl).1 →
      w ∈ (scrape_category_products_playwright o s cu cn maxP ex d0 fl).1 →
      v.outcome = .ok 0 → 1 < v.pageNum → w.pageNum ≤ v.pageNum) := by
  constructor
  · intro o s cu cn ex d0 fl v w hv hw hz hgt
    exact scrapeCategoryProductsAux_zero_stop o s cu cn ex 50 1 ⟨d0, [], fl⟩ v w hv hw hz hgt
  · intro o s cu cn maxP ex d0 fl v w hv hw hz hgt
    exact scrapeCategoryProductsPlaywrightAux_zero_stop o s cu cn maxP ex 10 1 ⟨d0, [], fl⟩
      v w hv hw hz hgt

/-- Witness for C4: in a jumbo crawl whose page 2 yields zero new records,
every loaded page has number at most 2. -/
theorem claim4_witness :
    PageVisit.pageNum ⟨1, "c?page=1", .ok 1⟩ ≤ PageVisit.pageNum ⟨2, "c?page=2", .ok 0⟩ :=
  claim4_pagination_termination.1 c4Oracle noSkip "c" "n" [] .missing false
    ⟨2, "c?page=2", .ok 0⟩ ⟨1, "c?page=1", .ok 1⟩ (by decide) (by decide) (by decide) (by decide)

/-- C5: page-cap enforcement and loop termination.  The jumbo crawler loads
at most 50 pages and the unimarc crawler at most 10 in every run (the loop
is total by construction — it recurses on the remaining page budget); and
with an extractor that always reports a next page and always yields a fresh
record, each crawler loads exactly its cap. -/
theorem claim5_page_cap :
    (∀ (o : Nat → PageLoad JumboPageData) (s : Nat → Bool) (cu cn : String)
       (ex : PDict) (d0 : StoreDoc) (fl : Bool),
      (scrape_category_products o s cu cn ex d0 fl).1.length ≤ 50) ∧
    (scrape_category_products c5JumboOracle noSkip "c" "n" [] .missing false).1.length = 50 ∧
    (∀ (o : Nat → PageLoad (List URaw)) (s : Nat → Bool) (cu cn : String) (maxP : Nat)
       (ex : PDict) (d0 : StoreDoc) (fl : Bool),
      (scrape_category_products_playwright o s cu cn maxP ex d0 fl).1.length ≤ 10) ∧
    (scrape_category_products_playwright c5UnimarcOracle noSkip "c" "n" 300 [] .missing
        false).1.length = 10 := by
  refine ⟨?_, ?_, ?_, ?_⟩
  · intro o s cu cn ex d0 fl
    exact scrapeCategoryProductsAux_length o s cu cn ex 50 1 ⟨d0, [], fl⟩
  · decide
  · intro o s cu cn maxP ex d0 fl
    exact scrapeCategoryProductsPlaywrightAux_length o s cu cn maxP ex 10 1 ⟨d0, [], fl⟩
  · decide

/-- C6 as stated is false on scraper-jumbo.py: the jumbo crawler appends a
page parameter for every page including page 1 (lines 163-167 run before any
page-number test), so page 1 is never loaded from the bare category URL.
Concretely, a jumbo crawl of the bare category URL
`https://www.jumbo.cl/despensa` loads page 1 from
`https://www.jumbo.cl/despensa?page=1`, which differs from the bare URL. -/
theorem claim6_counterexample :
    (scrape_category_products c6TimeoutOracle noSkip "https://www.jumbo.cl/despensa"
        "despensa" [] .missing false).1 =
      [⟨1, "https://www.jumbo.cl/despensa?page=1", .timeout⟩] ∧
    (("https://www.jumbo.cl/despensa?page=1" == "https://www.jumbo.cl/despensa") = false) := by
  decide

/-- C6 amended: the unimarc crawler loads page 1 from the bare category URL
and appends `?page=n` for every later page; the jumbo crawler appends a
page-number parameter for every page including page 1 (`&page=n` when the
category URL already contains `?`, else `?page=n`). -/
theorem claim6_amended_urls :
    (∀ (o : Nat → PageLoad JumboPageData) (s : Nat → Bool) (cu cn : String)
       (ex : PDict) (d0 : StoreDoc) (fl : Bool) (v : PageVisit),
      v ∈ (scrape_category_products o s cu cn ex d0 fl).1 →
      v.url = if strContainsChar cu '?' then cu ++ "&page=" ++ Nat.repr v.pageNum
        else cu ++ "?page=" ++ Nat.repr v.pageNum) ∧
    (∀ (o : Nat → PageLoad (List URaw)) (s : Nat → Bool) (cu cn : String) (maxP : Nat)
       (ex : PDict) (d0 : StoreDoc) (fl : Bool) (v : PageVisit),
      v ∈ (scrape_category_products_playwright o s cu cn maxP ex d0 fl).1 →
      v.url = if v.pageNum = 1 then cu else cu ++ "?page=" ++ Nat.repr v.pageNum) := by
  constructor
  · intro o s cu cn ex d0 fl v hv
    exact scrapeCategoryProductsAux_url o s cu cn ex 50 1 ⟨d0, [], fl⟩ v hv
  · intro o s cu cn maxP ex d0 fl v hv
    exact scrapeCategoryProductsPlaywrightAux_url o s cu cn maxP ex 10 1 ⟨d0, [], fl⟩ v hv

/-- Witness for C6 (amended): page 1 of a unimarc crawl is loaded from the
bare category URL. -/
theorem claim6_witness :
    PageVisit.url ⟨1, "https://www.unimarc.cl/category/carnes", .timeout⟩ =
      if (1 : Nat) = 1 then "https://www.unimarc.cl/category/carnes"
      else "https://www.unimarc.cl/category/carnes" ++ "?page=" ++ Nat.repr 1 :=
  claim6_amended_urls.2 c6uTimeoutOracle noSkip "https://www.unimarc.cl/category/carnes"
    "carnes" 300 [] .missing false ⟨1, "https://www.unimarc.cl/category/carnes", .timeout⟩
    (by decide)

/-- C7 as stated is false: a skip flag set during a category's page loop is
only honored at the next top-of-loop check, so when it is set during the
final iteration of the loop it survives the category.  Concretely, with one
valid record on page 1 and an empty page 2, the crawl processes pages 1 and
2 and stops (zero new records on page 2); the operator sets the flag while
page 2 is being processed (`c7Sched 2 = true`), no further check runs, and
the flag is still set when the crawl returns — that is, the flag is NOT
clear at the moment the next category's page loop begins, contradicting the
claim's second conjunct. -/
theorem claim7_counterexample :
    ((scrape_category_products c7Oracle c7Sched "c" "n" [] .missing false).1.map
        PageVisit.pageNum = [1, 2]) ∧
    c7Sched 2 = true ∧
    (scrape_category_products c7Oracle c7Sched "c" "n" [] .missing false).2.flag = true := by
  decide

/-- C7 amended: a skip flag that is set before a category's page loop begins
is honored at the very first check: the category stops without loading any
page (hence before completing its page cap) and the flag is cleared, so it
is clear when the next category's page loop begins.  (A flag set during the
loop is honored at the next top-of-loop check when one occurs; if the loop
ends in that same iteration, the flag survives into the next category, per
the counterexample.) -/
theorem claim7_amended_skip :
    (∀ (o : Nat → PageLoad JumboPageData) (s : Nat → Bool) (cu cn : String)
       (ex : PDict) (d0 : StoreDoc),
      (scrape_category_products o s cu cn ex d0 true).1 = [] ∧
      (scrape_category_products o s cu cn ex d0 true).2.flag = false) ∧
    (∀ (o : Nat → PageLoad (List URaw)) (s : Nat → Bool) (cu cn : String) (maxP : Nat)
       (ex : PDict) (d0 : StoreDoc),
      (scrape_category_products_playwright o s cu cn maxP ex d0 true).1 = [] ∧
      (scrape_category_products_playwright o s cu cn maxP ex d0 true).2.flag = false) :=
  ⟨fun _ _ _ _ _ _ => ⟨rfl, rfl⟩, fun _ _ _ _ _ _ _ => ⟨rfl, rfl⟩⟩

/-- C8 as stated is false: in both scripts the browser launch and
`new_page` happen before the `try`/`finally` is entered and the final
`save_products` call sits inside the `try` block, not the `finally` (whose
only statement is `browser.close()`).  On the claim's own example — failure
to launch the browsing session — the error propagates (`raised = true`) but
the exit trace contains neither a final store-save attempt nor a browser
shutdown. -/
theorem claim8_counterexample :
    (mainModel true false false).1 = [] ∧ (mainModel true false false).2 = true := by
  decide

/-- C8 amended: when a fatal error is raised inside the orchestrator's try
body after a successful launch, the `finally` discipline still performs the
graceful session shutdown (`browser.close()`) before exit, but skips the
final store save, which is part of the try body; when the final save itself
is what fails (store unwritable), the save was attempted and the shutdown
still runs; and when the launch fails, neither a save attempt nor a
shutdown occurs. -/
theorem claim8_amended_finally :
    (∀ b f : Bool, MainEvent.browserClose ∈ (mainModel false b f).1) ∧
    (∀ f : Bool, (mainModel false true f).1 = [MainEvent.browserClose] ∧
      (mainModel false true f).2 = true) ∧
    ((mainModel false false true).1 = [MainEvent.finalSaveAttempt, MainEvent.browserClose] ∧
      (mainModel false false true).2 = true) ∧
    (∀ b f : Bool, (mainModel true b f).1 = []) := by
  decide
